import Mathlib

/-!
Verification of the inbound-request admission-control pipeline of the
QuickAPI-Python service: the dual token-bucket rate limiter
(app/config/rate_limiter.py, app/store/rate_limit.py), the request body
limit middleware (app/middleware/request_body_limit.py), and the request
timeout middleware (app/middleware/request_timeout.py).

Time (the monotonic clock) is embedded as an explicit rational parameter
passed to each operation; Python floats used as token counts and
timestamps are embedded as rationals; Python `int` configuration values,
documented strictly positive, are embedded as naturals.
-/

set_option maxHeartbeats 1000000

/-- Per-client token bucket state, mirroring the dataclass
`RateLimitState` of app/store/rate_limit.py. -/
@[ext]
structure RateLimitState where
  burst_tokens : ℚ
  sustained_tokens : ℚ
  last_burst_reset : ℚ
  last_refill : ℚ
  last_seen : ℚ
deriving DecidableEq, Repr

/-- `RateLimitState.new`: a fresh bucket with full allowances and all
timestamps set to the current time. -/
def RateLimitState.new (max_burst max_sustained : ℕ) (now : ℚ) : RateLimitState :=
  { burst_tokens := (max_burst : ℚ)
    sustained_tokens := (max_sustained : ℚ)
    last_burst_reset := now
    last_refill := now
    last_seen := now }

/-- The `RateLimiter` object of app/config/rate_limiter.py: the five
construction-time knobs together with the mutable client map (embedded as
an association list keyed by client ip) and the last-GC timestamp. -/
structure RateLimiter where
  max_burst : ℕ
  burst_window : ℚ
  max_sustained : ℕ
  sustained_period : ℚ
  gc_interval : ℚ
  clients : List (String × RateLimitState)
  last_gc : ℚ
deriving DecidableEq, Repr

/-- `RateLimiter.__init__`: empty client map, `_last_gc = monotonic()`. -/
def RateLimiter.init (max_burst : ℕ) (burst_window : ℚ) (max_sustained : ℕ)
    (sustained_period gc_interval : ℚ) (now : ℚ) : RateLimiter :=
  { max_burst := max_burst
    burst_window := burst_window
    max_sustained := max_sustained
    sustained_period := sustained_period
    gc_interval := gc_interval
    clients := []
    last_gc := now }

/-- Lookup in the client map (`self._clients.get(ip)`). -/
def findState (ip : String) : List (String × RateLimitState) → Option RateLimitState
  | [] => none
  | (k, s) :: rest => if k = ip then some s else findState ip rest

/-- Store a value under a key: replace the first binding of the key, or
append a new binding (the dict write `self._clients[ip] = state`). -/
def setState (ip : String) (s : RateLimitState) :
    List (String × RateLimitState) → List (String × RateLimitState)
  | [] => [(ip, s)]
  | (k, v) :: rest => if k = ip then (k, s) :: rest else (k, v) :: setState ip s rest

/-- Replace the first binding of a key when present, leave the map
unchanged when absent.  This embeds the Python aliasing in `allow`: the
token decrement mutates the state object, which updates the dict entry
only if garbage collection has not deleted it. -/
def updateExisting (ip : String) (s : RateLimitState) :
    List (String × RateLimitState) → List (String × RateLimitState)
  | [] => []
  | (k, v) :: rest => if k = ip then (k, s) :: rest else (k, v) :: updateExisting ip s rest

/-- `RateLimiter._get_state`: the existing bucket, or a fresh one. -/
def RateLimiter.get_state (rl : RateLimiter) (ip : String) (now : ℚ) : RateLimitState :=
  match findState ip rl.clients with
  | some s => s
  | none => RateLimitState.new rl.max_burst rl.max_sustained now

/-- `RateLimiter._refill`: continuous sustained refill (clamped at
`max_sustained`), windowed burst reset, and the `last_seen` update. -/
def RateLimiter.refill (rl : RateLimiter) (now : ℚ) (s : RateLimitState) : RateLimitState :=
  let elapsed : ℚ := now - s.last_refill
  let s1 : RateLimitState :=
    if 0 < elapsed then
      let refill_rate : ℚ := (rl.max_sustained : ℚ) / rl.sustained_period
      { s with last_refill := now
               sustained_tokens :=
                 min (rl.max_sustained : ℚ) (s.sustained_tokens + elapsed * refill_rate) }
    else s
  let s2 : RateLimitState :=
    if rl.burst_window ≤ now - s1.last_burst_reset then
      { s1 with burst_tokens := (rl.max_burst : ℚ), last_burst_reset := now }
    else s1
  { s2 with last_seen := now }

/-- `RateLimiter._gc`: when at least `gc_interval` has elapsed since the
last pass, delete every bucket idle for more than `2 × sustained_period`
and record the pass time. -/
def RateLimiter.gcPass (rl : RateLimiter) (now : ℚ) : RateLimiter :=
  if now - rl.last_gc < rl.gc_interval then rl
  else
    let cutoff : ℚ := rl.sustained_period * 2
    { rl with
      clients := rl.clients.filter (fun p => !(decide (cutoff < now - p.2.last_seen)))
      last_gc := now }

/-- `RateLimiter.allow`: look up or create the bucket, refill it (the
refilled object is what the dict holds), run GC, then admit only when
both token counts are at least 1, decrementing each by one on admission.
The decrement is written back through `updateExisting` because in the
source it mutates the state object, which is in the dict only if GC kept
it. -/
def RateLimiter.allow (rl : RateLimiter) (ip : String) (now : ℚ) : Bool × RateLimiter :=
  let s0 : RateLimitState := rl.get_state ip now
  let s1 : RateLimitState := rl.refill now s0
  let rl1 : RateLimiter := { rl with clients := setState ip s1 rl.clients }
  let rl2 : RateLimiter := rl1.gcPass now
  if s1.burst_tokens < 1 then (false, rl2)
  else if s1.sustained_tokens < 1 then (false, rl2)
  else
    let s2 : RateLimitState :=
      { s1 with burst_tokens := s1.burst_tokens - 1
                sustained_tokens := s1.sustained_tokens - 1 }
    (true, { rl2 with clients := updateExisting ip s2 rl2.clients })

/-- The limiter after `n` successive `allow` calls for a fixed client at
a fixed instant. -/
def RateLimiter.allowRun (rl : RateLimiter) (ip : String) (now : ℚ) : ℕ → RateLimiter
  | 0 => rl
  | n + 1 => ((rl.allowRun ip now n).allow ip now).2

/-- The decision of the `n`-th (0-indexed) `allow` call in such a run. -/
def RateLimiter.nthAllow (rl : RateLimiter) (ip : String) (now : ℚ) (n : ℕ) : Bool :=
  ((rl.allowRun ip now n).allow ip now).1

/-!
Embedding of the ASGI message stream shared by both middlewares.  A
received message is either a body-bearing `http.request` message (its
body a list of bytes and its `more_body` flag) or some other message
type such as `http.disconnect`.
-/

/-- An inbound ASGI message as seen by a `receive` callable. -/
inductive Msg where
  | request (body : List ℕ) (more_body : Bool)
  | disconnect
deriving DecidableEq, Repr

/-- The byte length the body-limit middleware charges a message for:
`len(chunk)` of an `http.request` message, nothing otherwise. -/
def msgLen : Msg → ℕ
  | .request body _ => body.length
  | .disconnect => 0

/-- Cumulative charged length of a message list. -/
def sumLen (msgs : List Msg) : ℕ := (msgs.map msgLen).sum

/-!
Embedding of `RequestBodyLimitASGIMiddleware`
(app/middleware/request_body_limit.py).  The three `HTTPException`
raise sites are embedded as the three constructors of `BLReject`; each
carries status 413 in the source (`HTTP_413_CONTENT_TOO_LARGE` for the
pre-check sites, `HTTP_413_REQUEST_ENTITY_TOO_LARGE` for the streaming
site — both names denote the numeric status 413).
-/

/-- The rejections the body-limit middleware can raise: an unparsable
`Content-Length` header (detail "Invalid Content-Length header."), a
declared length over the limit, and a streamed body over the limit
(both with detail "Request body exceeds maximum allowed size ..."). -/
inductive BLReject where
  | invalidContentLength
  | declaredTooLarge
  | streamTooLarge
deriving DecidableEq, Repr

/-- The HTTP status code of each body-limit rejection, as raised in the
source: all three sites use a 413 constant. -/
def BLReject.status : BLReject → ℕ
  | .invalidContentLength => 413
  | .declaredTooLarge => 413
  | .streamTooLarge => 413

/-- The `Content-Length` header of a request as the pre-check sees it:
absent, present but rejected by `int(...)` with a `ValueError`, or
parsed to an integer. -/
inductive ContentLengthHeader where
  | absent
  | malformed
  | valid (declared : ℤ)
deriving DecidableEq, Repr

/-- The pre-check of `RequestBodyLimitASGIMiddleware._run`: parse a
present `Content-Length` (unparsable → `invalidContentLength`), then
fast-reject a declared length strictly over the limit before any body
is read. -/
def precheck (max_bytes : ℕ) (cl : ContentLengthHeader) : Option BLReject :=
  match cl with
  | .absent => none
  | .malformed => some .invalidContentLength
  | .valid declared =>
      if (max_bytes : ℤ) < declared then some .declaredTooLarge else none

/-- The mutable accounting the middleware keeps per request: the
`total` byte counter and the `body_chunks` replay buffer. -/
structure RecvState where
  total : ℕ
  body_chunks : List (List ℕ)
deriving DecidableEq, Repr

/-- One invocation of `limited_receive` on an already-arrived message:
charge a non-empty `http.request` chunk to `total` first (the source
increments the counter before the limit test), raise `streamTooLarge`
when the counter passes the limit, otherwise append the chunk to the
replay buffer and hand the message through unchanged. -/
def limited_receive (max_bytes : ℕ) (st : RecvState) (msg : Msg) :
    RecvState × Except BLReject Msg :=
  match msg with
  | .request body _ =>
      let chunk_len : ℕ := body.length
      if chunk_len ≠ 0 then
        let total : ℕ := st.total + chunk_len
        if max_bytes < total then ({ st with total := total }, .error .streamTooLarge)
        else ({ total := total, body_chunks := st.body_chunks ++ [body] }, .ok msg)
      else (st, .ok msg)
  | .disconnect => (st, .ok msg)

/-- Drive `limited_receive` over the whole inbound stream, the way a
downstream consumer pulls messages until the stream ends or the raised
rejection aborts it: the forwarded messages, the final accounting, and
the rejection (if any). -/
def processMessages (max_bytes : ℕ) :
    List Msg → RecvState → List Msg × RecvState × Option BLReject
  | [], st => ([], st, none)
  | m :: rest, st =>
      match limited_receive max_bytes st m with
      | (st1, .error e) => ([], st1, some e)
      | (st1, .ok m1) =>
          let r := processMessages max_bytes rest st1
          (m1 :: r.1, r.2.1, r.2.2)

/-- `RequestBodyLimitASGIMiddleware._run` on one request: the
pre-check, then (when it passes) streaming enforcement over the body
stream starting from zero accounting. -/
def bodyLimitRun (max_bytes : ℕ) (cl : ContentLengthHeader) (msgs : List Msg) :
    List Msg × RecvState × Option BLReject :=
  match precheck max_bytes cl with
  | some e => ([], { total := 0, body_chunks := [] }, some e)
  | none => processMessages max_bytes msgs { total := 0, body_chunks := [] }

/-- The replay chunks the middleware buffers for a message list: the
non-empty bodies of its `http.request` messages, in order. -/
def bufferedChunks (msgs : List Msg) : List (List ℕ) :=
  msgs.filterMap (fun m =>
    match m with
    | .request body _ => if body.length ≠ 0 then some body else none
    | .disconnect => none)

/-- An outgoing HTTP response: status and the header pairs the
pipeline attached (the framework-serialized entity headers of a
`JSONResponse` are not modelled; the middleware adds none of those). -/
structure Response where
  status : ℕ
  headers : List (String × String)
deriving DecidableEq, Repr

/-- `http_exception_handler` of app/handlers/exception_handler.py run
on a body-limit rejection: a `JSONResponse` with the exception's
status and no custom headers. -/
def http_exception_handler (e : BLReject) : Response :=
  { status := e.status, headers := [] }

/-- `send_wrapper` of `_run` applied to the response-start message of
an accepted request: append the two informational headers, the
remaining allowance floored at zero (`max(max_bytes - total, 0)`,
which is ℕ subtraction here). -/
def send_wrapper (max_bytes total : ℕ) (r : Response) : Response :=
  { r with headers := r.headers ++
      [("x-body-limit-bytes", toString max_bytes),
       ("x-body-remaining-bytes", toString (max_bytes - total))] }

/-- `RequestBodyLimitASGIMiddleware.__call__` on one request: when
`_run` raises, the handler response goes out through the bare `send`;
when the request is accepted, the downstream response-start passes
through `send_wrapper`. -/
def bodyLimitCall (max_bytes : ℕ) (cl : ContentLengthHeader) (msgs : List Msg)
    (appResponse : Response) : Response :=
  let r := bodyLimitRun max_bytes cl msgs
  match r.2.2 with
  | some e => http_exception_handler e
  | none => send_wrapper max_bytes r.2.1.total appResponse

/-!
Embedding of `RequestTimeoutASGIMiddleware`
(app/middleware/request_timeout.py).  `asyncio.wait_for(receive(), T)`
is embedded by giving each `timed_receive` invocation the time `now` at
which it runs and the time `arrival` at which the underlying receive
would complete; the awaited call times out exactly when
`arrival - now > T`.
-/

/-- A rejection response of the timeout middleware: status and detail
of the raised `HTTPException`. -/
structure HTTPError where
  status_code : ℕ
  detail : String
deriving DecidableEq, Repr

/-- The three construction-time knobs of `RequestTimeoutASGIMiddleware`. -/
structure TimeoutConfig where
  header_timeout : ℚ
  chunk_timeout : ℚ
  total_timeout : ℚ
deriving DecidableEq, Repr

/-- The per-request state of `_run`: the recorded start time and the
`received_headers` flag. -/
structure TimedState where
  start_time : ℚ
  received_headers : Bool
deriving DecidableEq, Repr

/-- One invocation of `timed_receive`: the pre-await header-deadline
check (only before the first body message), the awaited receive with
its `header_timeout` or `chunk_timeout` deadline, and the total-time
check against the pre-await `now` once a body message arrives. -/
def timed_receive (cfg : TimeoutConfig) (st : TimedState) (now arrival : ℚ) (msg : Msg) :
    Except HTTPError (Msg × TimedState) :=
  if ¬st.received_headers ∧ cfg.header_timeout < now - st.start_time then
    .error { status_code := 408, detail := "Request header timeout exceeded." }
  else if (if st.received_headers then cfg.chunk_timeout else cfg.header_timeout) <
      arrival - now then
    .error { status_code := 408, detail := "Request chunk timeout exceeded." }
  else
    match msg with
    | .request body more_body =>
        if cfg.total_timeout < now - st.start_time then
          .error { status_code := 408, detail := "Total request timeout exceeded." }
        else .ok (.request body more_body, { st with received_headers := true })
    | .disconnect => .ok (msg, st)

/-- The documented per-bucket invariant: both token counts are
non-negative and capped at their configured maxima. -/
def StateInv (rl : RateLimiter) (s : RateLimitState) : Prop :=
  0 ≤ s.burst_tokens ∧ s.burst_tokens ≤ (rl.max_burst : ℚ) ∧
  0 ≤ s.sustained_tokens ∧ s.sustained_tokens ≤ (rl.max_sustained : ℚ)

/-- The bucket of a client after `k` zero-elapsed-time `allow` calls
that all started from a fresh bucket at time `t`: both counters have
lost one token per admitted call, and exactly `min max_burst
max_sustained` calls are admitted. -/
def burstRunState (B S : ℕ) (t : ℚ) (k : ℕ) : RateLimitState :=
  { burst_tokens := (B : ℚ) - (min k (min B S) : ℕ)
    sustained_tokens := (S : ℚ) - (min k (min B S) : ℕ)
    last_burst_reset := t
    last_refill := t
    last_seen := t }

/-! ## Streaming-enforcement lemmas for the body-limit middleware -/

theorem sumLen_nil : sumLen [] = 0 := rfl

theorem sumLen_cons (m : Msg) (msgs : List Msg) :
    sumLen (m :: msgs) = msgLen m + sumLen msgs := by
  simp [sumLen]

theorem bufferedChunks_nil : bufferedChunks [] = [] := rfl

theorem bufferedChunks_cons_request (body : List ℕ) (more : Bool) (msgs : List Msg) :
    bufferedChunks (Msg.request body more :: msgs) =
      (if body.length ≠ 0 then [body] else []) ++ bufferedChunks msgs := by
  by_cases hb : body.length = 0
  · have hbody : body = [] := List.length_eq_zero.mp hb
    subst hbody
    simp [bufferedChunks]
  · have hbody : ¬ body = [] := fun hc => hb (by simp [hc])
    simp [bufferedChunks, List.filterMap_cons, hb, hbody]

theorem bufferedChunks_cons_disconnect (msgs : List Msg) :
    bufferedChunks (Msg.disconnect :: msgs) = bufferedChunks msgs := by
  simp [bufferedChunks]

/-- While the cumulative charged length stays within the limit, the
stream is forwarded in full, the counter advances by exactly that
length, the non-empty chunks are buffered in order, and no rejection
is raised. -/
theorem processMessages_under (N : ℕ) (msgs : List Msg) : ∀ st : RecvState,
    st.total + sumLen msgs ≤ N →
    processMessages N msgs st =
      (msgs, { total := st.total + sumLen msgs
               body_chunks := st.body_chunks ++ bufferedChunks msgs }, none) := by
  induction msgs with
  | nil => intro st h; simp [processMessages, sumLen_nil, bufferedChunks_nil]
  | cons m rest ih =>
    intro st h
    rw [sumLen_cons] at h
    cases m with
    | request body more =>
      by_cases hb : body.length = 0
      · have hrest : st.total + sumLen rest ≤ N := by
          simp [msgLen, hb] at h; omega
        simp [processMessages, limited_receive, hb, ih st hrest,
          sumLen_cons, bufferedChunks_cons_request, msgLen]
      · have hfit : ¬ N < st.total + body.length := by
          simp only [msgLen] at h; omega
        have hrest : (st.total + body.length) + sumLen rest ≤ N := by
          simp only [msgLen] at h; omega
        have := ih { total := st.total + body.length
                     body_chunks := st.body_chunks ++ [body] } hrest
        simp only [processMessages, limited_receive, hb, if_neg hfit, if_pos,
          ne_eq, not_false_eq_true, ite_true, this]
        simp [bufferedChunks_cons_request, hb, sumLen_cons, msgLen]
        omega
    | disconnect =>
      have hrest : st.total + sumLen rest ≤ N := by
        simp [msgLen] at h; omega
      simp [processMessages, limited_receive, bufferedChunks_cons_disconnect,
        sumLen_cons, msgLen, ih st hrest]

/-- When the cumulative charged length first exceeds the limit at an
`http.request` chunk, the messages before that chunk are forwarded and
buffered, the counter has already charged the offending chunk (the
source increments before raising), the offending chunk is not buffered,
and neither it nor anything after it is forwarded. -/
theorem processMessages_cross (N : ℕ) (body : List ℕ) (more : Bool) (ms2 : List Msg)
    (ms1 : List Msg) : ∀ st : RecvState,
    st.total + sumLen ms1 ≤ N → N < st.total + sumLen ms1 + body.length →
    processMessages N (ms1 ++ Msg.request body more :: ms2) st =
      ([] ++ ms1,
       { total := st.total + sumLen ms1 + body.length
         body_chunks := st.body_chunks ++ bufferedChunks ms1 }, some .streamTooLarge) := by
  induction ms1 with
  | nil =>
    intro st hle hcross
    rw [sumLen_nil] at hle hcross
    have hb : ¬ body.length = 0 := by omega
    have hover : N < st.total + body.length := by omega
    simp [processMessages, limited_receive, hb, hover, sumLen_nil, bufferedChunks_nil]
  | cons m rest ih =>
    intro st hle hcross
    rw [sumLen_cons] at hle hcross
    cases m with
    | request b mb =>
      by_cases hb : b.length = 0
      · have hrest := ih st (by simp [msgLen, hb] at hle ⊢; omega)
          (by simp [msgLen, hb] at hcross ⊢; omega)
        simp [processMessages, limited_receive, hb, hrest,
          sumLen_cons, bufferedChunks_cons_request, msgLen]
      · have hfit : ¬ N < st.total + b.length := by
          simp only [msgLen] at hle; omega
        have hrest := ih { total := st.total + b.length
                           body_chunks := st.body_chunks ++ [b] }
          (by simp only [msgLen] at hle; simp; omega)
          (by simp only [msgLen] at hcross; simp; omega)
        simp [processMessages, limited_receive, hb, hfit, hrest,
          sumLen_cons, bufferedChunks_cons_request, msgLen]
        omega
    | disconnect =>
      have hrest := ih st (by simp [msgLen] at hle ⊢; omega)
        (by simp [msgLen] at hcross ⊢; omega)
      simp [processMessages, limited_receive, hrest,
        sumLen_cons, bufferedChunks_cons_disconnect, msgLen]

/-! ## Claims on the body-limit middleware -/

/-- C2: with limit N, a declared `Content-Length` of exactly N passes
the pre-check and a stream of exactly N bytes is accepted and forwarded
in full; a declared N+1 is rejected 413 with nothing consumed; and a
body with no declared length is rejected at the first chunk whose
arrival pushes the cumulative count over N — that chunk and all later
chunks are neither buffered nor forwarded downstream. -/
theorem c2_body_limit_streaming (N : ℕ) :
    precheck N (.valid (N : ℤ)) = none
    ∧ (∀ msgs : List Msg, sumLen msgs = N →
        bodyLimitRun N (.valid (N : ℤ)) msgs =
          (msgs, { total := N, body_chunks := bufferedChunks msgs }, none))
    ∧ (∀ msgs : List Msg,
        bodyLimitRun N (.valid ((N : ℤ) + 1)) msgs =
          ([], { total := 0, body_chunks := [] }, some .declaredTooLarge))
    ∧ (∀ (ms1 : List Msg) (body : List ℕ) (more : Bool) (ms2 : List Msg),
        sumLen ms1 ≤ N → N < sumLen ms1 + body.length →
        bodyLimitRun N .absent (ms1 ++ Msg.request body more :: ms2) =
          (ms1, { total := sumLen ms1 + body.length
                  body_chunks := bufferedChunks ms1 }, some .streamTooLarge)) := by
  refine ⟨by simp [precheck], ?_, ?_, ?_⟩
  · intro msgs hsum
    have h := processMessages_under N msgs { total := 0, body_chunks := [] }
      (by simp [hsum])
    simp [bodyLimitRun, precheck, hsum] at h ⊢
    exact h
  · intro msgs
    simp [bodyLimitRun, precheck]
  · intro ms1 body more ms2 hle hcross
    have h := processMessages_cross N body more ms2 ms1 { total := 0, body_chunks := [] }
      (by simpa) (by simpa)
    simpa [bodyLimitRun, precheck] using h

theorem c2_body_limit_streaming_witness :
    bodyLimitRun 4 (.valid 4) [Msg.request [9, 9, 9, 9] false] =
      ([Msg.request [9, 9, 9, 9] false],
       { total := 4, body_chunks := [[9, 9, 9, 9]] }, none)
    ∧ bodyLimitRun 4 (.valid 5) [Msg.request [1] false] =
      ([], { total := 0, body_chunks := [] }, some .declaredTooLarge)
    ∧ bodyLimitRun 4 .absent
        [Msg.request [1, 2, 3] true, Msg.request [7, 7] true, Msg.request [5] false] =
      ([Msg.request [1, 2, 3] true], { total := 5, body_chunks := [[1, 2, 3]] },
       some .streamTooLarge) := by
  refine ⟨?_, ?_, ?_⟩
  · have h := (c2_body_limit_streaming 4).2.1 [Msg.request [9, 9, 9, 9] false] (by decide)
    exact h.trans (by decide)
  · have h := (c2_body_limit_streaming 4).2.2.1 [Msg.request [1] false]
    exact h.trans (by decide)
  · have h := (c2_body_limit_streaming 4).2.2.2 [Msg.request [1, 2, 3] true] [7, 7] true
      [Msg.request [5] false] (by decide) (by decide)
    exact h.trans (by decide)

/-- C3 counterexample: an unparsable `Content-Length` is rejected by
the pre-check with status 413 (the invalidContentLength raise site),
not with a 400 bad-request status as the claim states. -/
theorem c3_counterexample :
    precheck 1048576 .malformed = some .invalidContentLength
    ∧ BLReject.status .invalidContentLength = 413
    ∧ ¬ BLReject.status .invalidContentLength = 400 := by decide

/-- C3 amended: an unparsable `Content-Length` is rejected before any
body message is consumed, as a client error in the 4xx class — but with
status 413 (detail "Invalid Content-Length header."), not a 400-class
bad-request status. -/
theorem c3_amended (max_bytes : ℕ) (msgs : List Msg) :
    bodyLimitRun max_bytes .malformed msgs =
      ([], { total := 0, body_chunks := [] }, some .invalidContentLength)
    ∧ BLReject.status .invalidContentLength = 413
    ∧ 400 ≤ BLReject.status .invalidContentLength
    ∧ BLReject.status .invalidContentLength < 500 := by
  exact ⟨by simp [bodyLimitRun, precheck], by decide, by decide, by decide⟩

/-- C5 counterexample: the rejection response of a request refused by
the pre-check is sent through the bare `send` and carries neither
`X-Body-Limit-Bytes` nor `X-Body-Remaining-Bytes`. -/
theorem c5_counterexample :
    bodyLimitCall 10 (.valid 11) [] { status := 200, headers := [] } =
      { status := 413, headers := [] }
    ∧ ((bodyLimitCall 10 (.valid 11) [] { status := 200, headers := [] }).headers.any
        (fun p => p.1 = "x-body-limit-bytes")) = false
    ∧ ((bodyLimitCall 10 (.valid 11) [] { status := 200, headers := [] }).headers.any
        (fun p => p.1 = "x-body-remaining-bytes")) = false := by decide

/-- C5 amended: the pass-through response of an accepted request gets
`x-body-limit-bytes` (the configured limit) and
`x-body-remaining-bytes` (`max_body_bytes` minus bytes received,
floored at 0) appended by `send_wrapper`; a rejection response produced
through the middleware exception handler carries no headers at all. -/
theorem c5_amended (max_bytes : ℕ) (cl : ContentLengthHeader) (msgs : List Msg)
    (app : Response) :
    ((bodyLimitRun max_bytes cl msgs).2.2 = none →
      bodyLimitCall max_bytes cl msgs app =
        { status := app.status
          headers := app.headers ++
            [("x-body-limit-bytes", toString max_bytes),
             ("x-body-remaining-bytes",
              toString (max_bytes - (bodyLimitRun max_bytes cl msgs).2.1.total))] })
    ∧ ∀ e : BLReject, (bodyLimitRun max_bytes cl msgs).2.2 = some e →
        bodyLimitCall max_bytes cl msgs app = { status := e.status, headers := [] } := by
  constructor
  · intro h
    simp [bodyLimitCall, h, send_wrapper]
  · intro e h
    simp [bodyLimitCall, h, http_exception_handler]

theorem c5_amended_witness :
    bodyLimitCall 10 .absent [Msg.request [1, 2, 3] false]
        { status := 200, headers := [("a", "b")] } =
      { status := 200
        headers := [("a", "b"), ("x-body-limit-bytes", "10"),
                    ("x-body-remaining-bytes", "7")] }
    ∧ bodyLimitCall 10 (.valid 12) [] { status := 200, headers := [] } =
      { status := 413, headers := [] } := by
  constructor
  · have h := (c5_amended 10 .absent [Msg.request [1, 2, 3] false]
      { status := 200, headers := [("a", "b")] }).1 (by decide)
    exact h.trans (by decide)
  · have h := (c5_amended 10 (.valid 12) [] { status := 200, headers := [] }).2
      .declaredTooLarge (by decide)
    exact h.trans (by decide)

/-! ## Claims on the timeout middleware -/

/-- C4 counterexample: a first receive invocation made at the start
time whose message arrives only after `header_timeout` is rejected 408
with the chunk-timeout detail, not the header-timeout detail the claim
names. -/
theorem c4_counterexample :
    timed_receive { header_timeout := 5, chunk_timeout := 2, total_timeout := 10 }
        { start_time := 0, received_headers := false } 0 6 (.request [1] false) =
      .error { status_code := 408, detail := "Request chunk timeout exceeded." }
    ∧ "Request chunk timeout exceeded." ≠ "Request header timeout exceeded." := by
  refine ⟨by norm_num [timed_receive], by decide⟩

/-- C4 amended: before the first body message, a receive invocation
that already starts past the `header_timeout` deadline is rejected 408
with the header-timeout detail; one that starts in time but whose
message arrives past the deadline is rejected 408 with the
chunk-timeout detail; a first body message arriving within the deadline
(and within `total_timeout`) proceeds and marks headers received. -/
theorem c4_amended (cfg : TimeoutConfig) (t0 now arrival : ℚ) (body : List ℕ)
    (more : Bool) :
    (cfg.header_timeout < now - t0 →
      ∀ msg : Msg,
        timed_receive cfg { start_time := t0, received_headers := false } now arrival msg =
          .error { status_code := 408, detail := "Request header timeout exceeded." })
    ∧ (now - t0 ≤ cfg.header_timeout → cfg.header_timeout < arrival - now →
      ∀ msg : Msg,
        timed_receive cfg { start_time := t0, received_headers := false } now arrival msg =
          .error { status_code := 408, detail := "Request chunk timeout exceeded." })
    ∧ (now - t0 ≤ cfg.header_timeout → arrival - now ≤ cfg.header_timeout →
      now - t0 ≤ cfg.total_timeout →
      timed_receive cfg { start_time := t0, received_headers := false } now arrival
          (.request body more) =
        .ok (.request body more, { start_time := t0, received_headers := true })) := by
  refine ⟨?_, ?_, ?_⟩
  · intro h msg
    simp [timed_receive, h]
  · intro h1 h2 msg
    simp [timed_receive, not_lt.2 h1, h2]
  · intro h1 h2 h3
    simp [timed_receive, not_lt.2 h1, not_lt.2 h2, not_lt.2 h3]

theorem c4_amended_witness :
    timed_receive { header_timeout := 5, chunk_timeout := 2, total_timeout := 10 }
        { start_time := 0, received_headers := false } 7 8 .disconnect =
      .error { status_code := 408, detail := "Request header timeout exceeded." }
    ∧ timed_receive { header_timeout := 5, chunk_timeout := 2, total_timeout := 10 }
        { start_time := 0, received_headers := false } 0 6 (.request [2] true) =
      .error { status_code := 408, detail := "Request chunk timeout exceeded." }
    ∧ timed_receive { header_timeout := 5, chunk_timeout := 2, total_timeout := 10 }
        { start_time := 0, received_headers := false } 0 4 (.request [2] true) =
      .ok (.request [2] true, { start_time := 0, received_headers := true }) := by
  refine ⟨?_, ?_, ?_⟩
  · exact (c4_amended ⟨5, 2, 10⟩ 0 7 8 [2] true).1
      (by show (5 : ℚ) < 7 - 0; norm_num) .disconnect
  · exact (c4_amended ⟨5, 2, 10⟩ 0 0 6 [2] true).2.1
      (by show (0 : ℚ) - 0 ≤ 5; norm_num) (by show (5 : ℚ) < 6 - 0; norm_num)
      (.request [2] true)
  · exact (c4_amended ⟨5, 2, 10⟩ 0 0 4 [2] true).2.2
      (by show (0 : ℚ) - 0 ≤ 5; norm_num) (by show (4 : ℚ) - 0 ≤ 5; norm_num)
      (by show (0 : ℚ) - 0 ≤ 10; norm_num)

/-! ## Client-map lemmas for the rate limiter -/

theorem findState_setState_self (ip : String) (s : RateLimitState) :
    ∀ l : List (String × RateLimitState), findState ip (setState ip s l) = some s := by
  intro l
  induction l with
  | nil => simp [setState, findState]
  | cons p rest ih =>
    obtain ⟨k, v⟩ := p
    by_cases hk : k = ip <;> simp [setState, findState, hk, ih]

theorem findState_filter_keep (ip : String) (v : RateLimitState)
    (pred : String × RateLimitState → Bool) :
    ∀ l : List (String × RateLimitState), findState ip l = some v →
      pred (ip, v) = true → findState ip (l.filter pred) = some v := by
  intro l
  induction l with
  | nil => intro h; simp [findState] at h
  | cons p rest ih =>
    obtain ⟨k, w⟩ := p
    intro hfind hpred
    by_cases hk : k = ip
    · subst hk
      rw [findState] at hfind
      simp only [if_pos rfl] at hfind
      cases hfind
      rw [List.filter_cons, if_pos hpred, findState]
      simp
    · rw [findState] at hfind
      simp only [if_neg hk] at hfind
      rw [List.filter_cons]
      by_cases hp : pred (k, w)
      · rw [if_pos hp, findState]
        simp [hk, ih hfind hpred]
      · rw [if_neg (by simpa using hp)]
        exact ih hfind hpred

theorem findState_updateExisting_some (ip : String) (s v : RateLimitState) :
    ∀ l : List (String × RateLimitState), findState ip l = some v →
      findState ip (updateExisting ip s l) = some s := by
  intro l
  induction l with
  | nil => intro h; simp [findState] at h
  | cons p rest ih =>
    obtain ⟨k, w⟩ := p
    intro hfind
    by_cases hk : k = ip
    · simp [updateExisting, findState, hk]
    · rw [findState] at hfind
      simp only [if_neg hk] at hfind
      simp [updateExisting, findState, hk, ih hfind]

theorem findState_mem (ip : String) (v : RateLimitState) :
    ∀ l : List (String × RateLimitState), findState ip l = some v → (ip, v) ∈ l := by
  intro l
  induction l with
  | nil => intro h; simp [findState] at h
  | cons p rest ih =>
    obtain ⟨k, w⟩ := p
    intro hfind
    by_cases hk : k = ip
    · subst hk
      rw [findState] at hfind
      simp only [if_pos rfl] at hfind
      cases hfind
      exact List.mem_cons_self _ _
    · rw [findState] at hfind
      simp only [if_neg hk] at hfind
      exact List.mem_cons_of_mem _ (ih hfind)

theorem mem_setState (p : String × RateLimitState) (ip : String) (s : RateLimitState) :
    ∀ l : List (String × RateLimitState), p ∈ setState ip s l → p = (ip, s) ∨ p ∈ l := by
  intro l
  induction l with
  | nil =>
    intro h
    simp only [setState, List.mem_singleton] at h
    exact Or.inl h
  | cons q rest ih =>
    obtain ⟨k, v⟩ := q
    intro hp
    by_cases hk : k = ip
    · subst hk
      rw [setState, if_pos rfl] at hp
      rcases List.mem_cons.1 hp with h | h
      · exact Or.inl h
      · exact Or.inr (List.mem_cons_of_mem _ h)
    · rw [setState, if_neg hk] at hp
      rcases List.mem_cons.1 hp with h | h
      · exact Or.inr (by simp [h])
      · rcases ih h with h2 | h2
        · exact Or.inl h2
        · exact Or.inr (List.mem_cons_of_mem _ h2)

theorem mem_updateExisting (p : String × RateLimitState) (ip : String) (s : RateLimitState) :
    ∀ l : List (String × RateLimitState), p ∈ updateExisting ip s l → p = (ip, s) ∨ p ∈ l := by
  intro l
  induction l with
  | nil => intro h; simp [updateExisting] at h
  | cons q rest ih =>
    obtain ⟨k, v⟩ := q
    intro hp
    by_cases hk : k = ip
    · subst hk
      rw [updateExisting, if_pos rfl] at hp
      rcases List.mem_cons.1 hp with h | h
      · exact Or.inl h
      · exact Or.inr (List.mem_cons_of_mem _ h)
    · rw [updateExisting, if_neg hk] at hp
      rcases List.mem_cons.1 hp with h | h
      · exact Or.inr (by simp [h])
      · rcases ih h with h2 | h2
        · exact Or.inl h2
        · exact Or.inr (List.mem_cons_of_mem _ h2)

theorem mem_gcPass (rl : RateLimiter) (now : ℚ) (p : String × RateLimitState) :
    p ∈ (rl.gcPass now).clients → p ∈ rl.clients := by
  unfold RateLimiter.gcPass
  split
  · exact id
  · intro hp
    simp only at hp
    exact (List.mem_filter.1 hp).1

theorem refill_last_seen (rl : RateLimiter) (now : ℚ) (s : RateLimitState) :
    (rl.refill now s).last_seen = now := rfl

/-- After `allow` stores the refilled bucket, a GC pass in the same call
keeps it: its `last_seen` equals the current time, so its idle time is
zero, below any non-negative cutoff. -/
theorem findState_gcPass_after_set (rl : RateLimiter) (ip : String) (now : ℚ)
    (s1 : RateLimitState) (hseen : s1.last_seen = now)
    (hsp : 0 ≤ rl.sustained_period) :
    findState ip
      (({ rl with clients := setState ip s1 rl.clients } : RateLimiter).gcPass now).clients =
      some s1 := by
  unfold RateLimiter.gcPass
  split
  · exact findState_setState_self ip s1 rl.clients
  · simp only
    refine findState_filter_keep ip s1 _ _ (findState_setState_self ip s1 rl.clients) ?_
    have hkeep : ¬ (rl.sustained_period * 2 < now - s1.last_seen) := by
      rw [hseen, sub_self]
      exact not_lt.2 (mul_nonneg hsp (by norm_num))
    simp [hkeep]

/-- The admission decision of `allow`: both refilled token counts must
be at least 1. -/
theorem allow_fst_true_iff (rl : RateLimiter) (ip : String) (now : ℚ) :
    (rl.allow ip now).1 = true ↔
      1 ≤ (rl.refill now (rl.get_state ip now)).burst_tokens ∧
      1 ≤ (rl.refill now (rl.get_state ip now)).sustained_tokens := by
  simp only [RateLimiter.allow]
  split_ifs with h1 h2
  · exact iff_of_false (by simp) (fun h => absurd h.1 (not_le.2 h1))
  · exact iff_of_false (by simp) (fun h => absurd h.2 (not_le.2 h2))
  · exact iff_of_true rfl ⟨not_lt.1 h1, not_lt.1 h2⟩

/-- On the denial path, the caller's bucket ends exactly as the refill
step produced it. -/
theorem allow_snd_denied (rl : RateLimiter) (ip : String) (now : ℚ)
    (hsp : 0 ≤ rl.sustained_period)
    (h : (rl.refill now (rl.get_state ip now)).burst_tokens < 1 ∨
         (rl.refill now (rl.get_state ip now)).sustained_tokens < 1) :
    findState ip ((rl.allow ip now).2).clients =
      some (rl.refill now (rl.get_state ip now)) := by
  simp only [RateLimiter.allow]
  by_cases h1 : (rl.refill now (rl.get_state ip now)).burst_tokens < 1
  · rw [if_pos h1]
    exact findState_gcPass_after_set rl ip now _ (refill_last_seen rl now _) hsp
  · rcases h with h | h
    · exact absurd h h1
    · rw [if_neg h1, if_pos h]
      exact findState_gcPass_after_set rl ip now _ (refill_last_seen rl now _) hsp

/-- On the admission path, the caller's bucket ends as the refill step
produced it with one token taken from each counter. -/
theorem allow_snd_allowed (rl : RateLimiter) (ip : String) (now : ℚ)
    (hsp : 0 ≤ rl.sustained_period)
    (hb : ¬ (rl.refill now (rl.get_state ip now)).burst_tokens < 1)
    (hs : ¬ (rl.refill now (rl.get_state ip now)).sustained_tokens < 1) :
    findState ip ((rl.allow ip now).2).clients =
      some { rl.refill now (rl.get_state ip now) with
             burst_tokens := (rl.refill now (rl.get_state ip now)).burst_tokens - 1
             sustained_tokens := (rl.refill now (rl.get_state ip now)).sustained_tokens - 1 } := by
  simp only [RateLimiter.allow]
  rw [if_neg hb, if_neg hs]
  exact findState_updateExisting_some ip _ _ _
    (findState_gcPass_after_set rl ip now _ (refill_last_seen rl now _) hsp)

/-! ## Claims on the rate limiter: denial frame and GC self-protection -/

/-- C9: when `allow` returns denied, the client's bucket is left exactly
as the refill, burst-reset and `last_seen` updates produced it — no
token is decremented and no other field of the bucket changes on the
denial path. -/
theorem c9_denial_no_mutation (rl : RateLimiter) (ip : String) (now : ℚ)
    (hsp : 0 ≤ rl.sustained_period)
    (hden : (rl.allow ip now).1 = false) :
    findState ip ((rl.allow ip now).2).clients =
      some (rl.refill now (rl.get_state ip now)) := by
  apply allow_snd_denied rl ip now hsp
  by_contra hc
  push_neg at hc
  have h2 := (allow_fst_true_iff rl ip now).2 ⟨hc.1, hc.2⟩
  rw [hden] at h2
  cases h2

theorem c9_denial_no_mutation_witness :
    ((⟨2, 5, 3, 60, 120, [("a", ⟨0, 3, 0, 0, 0⟩)], 0⟩ : RateLimiter).allow "a" 0).1 = false
    ∧ findState "a"
        (((⟨2, 5, 3, 60, 120, [("a", ⟨0, 3, 0, 0, 0⟩)], 0⟩ : RateLimiter).allow "a" 0).2).clients =
      some ((⟨2, 5, 3, 60, 120, [("a", ⟨0, 3, 0, 0, 0⟩)], 0⟩ : RateLimiter).refill 0
        ((⟨2, 5, 3, 60, 120, [("a", ⟨0, 3, 0, 0, 0⟩)], 0⟩ : RateLimiter).get_state "a" 0)) := by
  have hden :
      ((⟨2, 5, 3, 60, 120, [("a", ⟨0, 3, 0, 0, 0⟩)], 0⟩ : RateLimiter).allow "a" 0).1 = false := by
    norm_num [RateLimiter.allow, RateLimiter.get_state, findState, RateLimiter.refill,
      RateLimiter.gcPass, setState]
  exact ⟨hden, c9_denial_no_mutation _ "a" 0 (by norm_num) hden⟩

/-- C10: a GC pass run inside `allow` never evicts the bucket of the
client making that very call: the refill step stamps `last_seen := now`
before GC scans, so the caller's bucket always survives the cutoff,
however long that client had been idle before the call. -/
theorem c10_gc_never_evicts_caller (rl : RateLimiter) (ip : String) (now : ℚ)
    (hsp : 0 ≤ rl.sustained_period) :
    (findState ip ((rl.allow ip now).2).clients).isSome := by
  by_cases hb : (rl.refill now (rl.get_state ip now)).burst_tokens < 1
  · rw [allow_snd_denied rl ip now hsp (Or.inl hb)]; rfl
  · by_cases hs : (rl.refill now (rl.get_state ip now)).sustained_tokens < 1
    · rw [allow_snd_denied rl ip now hsp (Or.inr hs)]; rfl
    · rw [allow_snd_allowed rl ip now hsp hb hs]; rfl

theorem c10_gc_never_evicts_caller_witness :
    (findState "a"
      (((⟨2, 5, 3, 60, 120, [("a", ⟨2, 3, -1000, -1000, -1000⟩)], -130⟩ : RateLimiter).allow
          "a" 0).2).clients).isSome := by
  exact c10_gc_never_evicts_caller _ "a" 0 (by norm_num)

/-- C7: a refill at or past the burst window sets `burst_tokens` to the
full `max_burst` in one step regardless of prior consumption; a refill
strictly inside the window leaves `burst_tokens` unchanged, and an
`allow` call strictly inside the window never increases the bucket's
`burst_tokens`. -/
theorem c7_burst_window_step (rl : RateLimiter) (s : RateLimitState) (now : ℚ) :
    (rl.burst_window ≤ now - s.last_burst_reset →
      (rl.refill now s).burst_tokens = (rl.max_burst : ℚ))
    ∧ (now - s.last_burst_reset < rl.burst_window →
      (rl.refill now s).burst_tokens = s.burst_tokens)
    ∧ (now - s.last_burst_reset < rl.burst_window → 0 ≤ rl.sustained_period →
      ∀ (ip : String) (s2 : RateLimitState), findState ip rl.clients = some s →
        findState ip ((rl.allow ip now).2).clients = some s2 →
        s2.burst_tokens ≤ s.burst_tokens) := by
  have hreset : ∀ h : rl.burst_window ≤ now - s.last_burst_reset,
      (rl.refill now s).burst_tokens = (rl.max_burst : ℚ) := by
    intro h
    simp only [RateLimiter.refill]
    split_ifs with h1 <;> rfl
  have hkeep : ∀ h : now - s.last_burst_reset < rl.burst_window,
      (rl.refill now s).burst_tokens = s.burst_tokens := by
    intro h
    simp only [RateLimiter.refill]
    split_ifs with h1 h2 h3 <;>
      first
        | rfl
        | (exact absurd (by simpa using h1) (not_le.2 h))
        | (exact absurd (by simpa using h2) (not_le.2 h))
        | (exact absurd (by simpa using h3) (not_le.2 h))
  refine ⟨hreset, hkeep, ?_⟩
  intro hlt hsp ip s2 hfind hfind2
  have hget : rl.get_state ip now = s := by
    unfold RateLimiter.get_state
    rw [hfind]
  have hburst : (rl.refill now (rl.get_state ip now)).burst_tokens = s.burst_tokens := by
    rw [hget]; exact hkeep hlt
  by_cases hb : (rl.refill now (rl.get_state ip now)).burst_tokens < 1
  · rw [allow_snd_denied rl ip now hsp (Or.inl hb)] at hfind2
    cases hfind2
    rw [hburst]
  · by_cases hs : (rl.refill now (rl.get_state ip now)).sustained_tokens < 1
    · rw [allow_snd_denied rl ip now hsp (Or.inr hs)] at hfind2
      cases hfind2
      rw [hburst]
    · rw [allow_snd_allowed rl ip now hsp hb hs] at hfind2
      cases hfind2
      simp only []
      rw [hburst]
      linarith

theorem c7_burst_window_step_witness :
    ((⟨2, 5, 3, 60, 120, [], 0⟩ : RateLimiter).refill 6
        (⟨0, 3, 0, 0, 0⟩ : RateLimitState)).burst_tokens = ((2 : ℕ) : ℚ)
    ∧ ((⟨2, 5, 3, 60, 120, [], 0⟩ : RateLimiter).refill 1
        (⟨0, 3, 0, 0, 0⟩ : RateLimitState)).burst_tokens =
      (⟨0, 3, 0, 0, 0⟩ : RateLimitState).burst_tokens
    ∧ (⟨1, 2, 0, 1, 1⟩ : RateLimitState).burst_tokens ≤
      (⟨2, 3, 0, 0, 0⟩ : RateLimitState).burst_tokens := by
  refine ⟨?_, ?_, ?_⟩
  · exact (c7_burst_window_step ⟨2, 5, 3, 60, 120, [], 0⟩ ⟨0, 3, 0, 0, 0⟩ 6).1
      (by show (5 : ℚ) ≤ 6 - 0; norm_num)
  · exact (c7_burst_window_step ⟨2, 5, 3, 60, 120, [], 0⟩ ⟨0, 3, 0, 0, 0⟩ 1).2.1
      (by show (1 : ℚ) - 0 < 5; norm_num)
  · refine (c7_burst_window_step ⟨2, 5, 3, 60, 120, [("a", ⟨2, 3, 0, 0, 0⟩)], 0⟩
      ⟨2, 3, 0, 0, 0⟩ 1).2.2 (by show (1 : ℚ) - 0 < 5; norm_num)
      (by show (0 : ℚ) ≤ 60; norm_num) "a" ⟨1, 2, 0, 1, 1⟩ (by simp [findState]) ?_
    norm_num [RateLimiter.allow, RateLimiter.get_state, RateLimiter.refill,
      RateLimiter.gcPass, findState, setState, updateExisting, min_def]

/-! ## Claim C6: token-bound invariants -/

theorem new_StateInv (rl : RateLimiter) (t : ℚ) :
    StateInv rl (RateLimitState.new rl.max_burst rl.max_sustained t) := by
  refine ⟨?_, ?_, ?_, ?_⟩ <;> simp [RateLimitState.new]

theorem get_state_StateInv (rl : RateLimiter) (ip : String) (now : ℚ)
    (hinv : ∀ p ∈ rl.clients, StateInv rl p.2) :
    StateInv rl (rl.get_state ip now) := by
  unfold RateLimiter.get_state
  cases hfs : findState ip rl.clients with
  | none => exact new_StateInv rl now
  | some s => exact hinv (ip, s) (findState_mem ip s rl.clients hfs)

theorem refill_StateInv (rl : RateLimiter) (now : ℚ) (s : RateLimitState)
    (hsp : 0 < rl.sustained_period) (h : StateInv rl s) :
    StateInv rl (rl.refill now s) := by
  obtain ⟨h1, h2, h3, h4⟩ := h
  have hrate : 0 ≤ (rl.max_sustained : ℚ) / rl.sustained_period :=
    div_nonneg (by positivity) hsp.le
  simp only [RateLimiter.refill]
  split_ifs with he hb hb
  · exact ⟨by positivity, le_refl _,
      le_min (by positivity) (by positivity),
      min_le_left _ _⟩
  · exact ⟨h1, h2,
      le_min (by positivity) (by positivity),
      min_le_left _ _⟩
  · exact ⟨by positivity, le_refl _, h3, h4⟩
  · exact ⟨h1, h2, h3, h4⟩

/-- Every binding in the client map after an `allow` call is the
caller's refilled bucket, the caller's refilled-and-decremented bucket,
or a binding that was already present. -/
theorem mem_allow_clients (rl : RateLimiter) (ip : String) (now : ℚ)
    (p : String × RateLimitState) (hp : p ∈ ((rl.allow ip now).2).clients) :
    p = (ip, rl.refill now (rl.get_state ip now)) ∨
    (1 ≤ (rl.refill now (rl.get_state ip now)).burst_tokens ∧
     1 ≤ (rl.refill now (rl.get_state ip now)).sustained_tokens ∧
     p = (ip, { rl.refill now (rl.get_state ip now) with
                burst_tokens := (rl.refill now (rl.get_state ip now)).burst_tokens - 1
                sustained_tokens :=
                  (rl.refill now (rl.get_state ip now)).sustained_tokens - 1 })) ∨
    p ∈ rl.clients := by
  simp only [RateLimiter.allow] at hp
  split_ifs at hp with hb hs
  · rcases mem_setState p ip _ rl.clients (mem_gcPass _ now p hp) with h | h
    · exact Or.inl h
    · exact Or.inr (Or.inr h)
  · rcases mem_setState p ip _ rl.clients (mem_gcPass _ now p hp) with h | h
    · exact Or.inl h
    · exact Or.inr (Or.inr h)
  · rcases mem_updateExisting p ip _ _ hp with h | h
    · exact Or.inr (Or.inl ⟨not_lt.1 hb, not_lt.1 hs, h⟩)
    · rcases mem_setState p ip _ rl.clients (mem_gcPass _ now p h) with h2 | h2
      · exact Or.inl h2
      · exact Or.inr (Or.inr h2)

/-- C6: the token bounds `0 ≤ burst_tokens ≤ max_burst` and
`0 ≤ sustained_tokens ≤ max_sustained` hold for a freshly created
bucket and, when they hold for every bucket in the map, they still hold
for every bucket after any `allow` call. -/
theorem c6_token_bounds (rl : RateLimiter) (ip : String) (now t : ℚ)
    (hsp : 0 < rl.sustained_period)
    (hinv : ∀ p ∈ rl.clients, StateInv rl p.2) :
    StateInv rl (RateLimitState.new rl.max_burst rl.max_sustained t)
    ∧ ∀ p ∈ ((rl.allow ip now).2).clients, StateInv rl p.2 := by
  refine ⟨new_StateInv rl t, ?_⟩
  intro p hp
  have hs1 : StateInv rl (rl.refill now (rl.get_state ip now)) :=
    refill_StateInv rl now _ hsp (get_state_StateInv rl ip now hinv)
  rcases mem_allow_clients rl ip now p hp with h | ⟨hb, hsu, h⟩ | h
  · rw [h]; exact hs1
  · rw [h]
    obtain ⟨h1, h2, h3, h4⟩ := hs1
    refine ⟨?_, ?_, ?_, ?_⟩ <;> · dsimp only; linarith
  · exact hinv p h

theorem c6_token_bounds_witness :
    StateInv (⟨2, 5, 3, 60, 120, [("a", ⟨1, 2, 0, 0, 0⟩)], 0⟩ : RateLimiter)
      (RateLimitState.new 2 3 0)
    ∧ StateInv (⟨2, 5, 3, 60, 120, [("a", ⟨1, 2, 0, 0, 0⟩)], 0⟩ : RateLimiter)
      (⟨0, 21/20, 0, 1, 1⟩ : RateLimitState) := by
  have hinv : ∀ p ∈ (⟨2, 5, 3, 60, 120, [("a", ⟨1, 2, 0, 0, 0⟩)], 0⟩ : RateLimiter).clients,
      StateInv (⟨2, 5, 3, 60, 120, [("a", ⟨1, 2, 0, 0, 0⟩)], 0⟩ : RateLimiter) p.2 := by
    intro p hp
    simp only [List.mem_singleton] at hp
    rw [hp]
    exact ⟨by norm_num, by norm_num, by norm_num, by norm_num⟩
  have hc := c6_token_bounds (⟨2, 5, 3, 60, 120, [("a", ⟨1, 2, 0, 0, 0⟩)], 0⟩ : RateLimiter)
    "a" 1 0 (by norm_num) hinv
  refine ⟨hc.1, ?_⟩
  refine hc.2 ("a", ⟨0, 21/20, 0, 1, 1⟩) ?_
  norm_num [RateLimiter.allow, RateLimiter.get_state, RateLimiter.refill,
    RateLimiter.gcPass, findState, setState, updateExisting, min_def]

/-! ## Claim C8: garbage collection and fresh buckets -/

/-- Refilling a bucket created at the same instant changes nothing:
no time has elapsed and the burst reset writes back the same values. -/
theorem refill_new (rl : RateLimiter) (now : ℚ) :
    rl.refill now (RateLimitState.new rl.max_burst rl.max_sustained now) =
      RateLimitState.new rl.max_burst rl.max_sustained now := by
  simp only [RateLimiter.refill, RateLimitState.new]
  split_ifs with he hb hb
  · exact absurd he (by simp)
  · exact absurd he (by simp)
  · rfl
  · rfl

/-- C8: a GC pass that is due removes every bucket idle for more than
`2 × sustained_period`, and a later request from a client with no
bucket is admitted against a brand-new bucket with full allowances,
leaving it with one token taken from each full counter. -/
theorem c8_gc_eviction_and_fresh (rl : RateLimiter) (now now2 : ℚ) (ip : String) :
    (rl.gc_interval ≤ now - rl.last_gc →
      ∀ p ∈ rl.clients, rl.sustained_period * 2 < now - p.2.last_seen →
        p ∉ (rl.gcPass now).clients)
    ∧ (findState ip rl.clients = none → 0 ≤ rl.sustained_period →
      1 ≤ rl.max_burst → 1 ≤ rl.max_sustained →
      (rl.allow ip now2).1 = true ∧
      findState ip ((rl.allow ip now2).2).clients =
        some { burst_tokens := (rl.max_burst : ℚ) - 1
               sustained_tokens := (rl.max_sustained : ℚ) - 1
               last_burst_reset := now2
               last_refill := now2
               last_seen := now2 }) := by
  constructor
  · intro hdue p hpmem hidle hpin
    simp only [RateLimiter.gcPass] at hpin
    rw [if_neg (not_lt.2 hdue)] at hpin
    have h2 := (List.mem_filter.1 hpin).2
    simp only [Bool.not_eq_true', decide_eq_false_iff_not] at h2
    exact h2 hidle
  · intro hnone hsp hB hM
    have hget : rl.get_state ip now2 = RateLimitState.new rl.max_burst rl.max_sustained now2 := by
      unfold RateLimiter.get_state
      rw [hnone]
    have hs1 : rl.refill now2 (rl.get_state ip now2) =
        RateLimitState.new rl.max_burst rl.max_sustained now2 := by
      rw [hget, refill_new]
    have hb : ¬ (rl.refill now2 (rl.get_state ip now2)).burst_tokens < 1 := by
      rw [hs1]
      show ¬ (rl.max_burst : ℚ) < 1
      exact not_lt.2 (by exact_mod_cast hB)
    have hsu : ¬ (rl.refill now2 (rl.get_state ip now2)).sustained_tokens < 1 := by
      rw [hs1]
      show ¬ (rl.max_sustained : ℚ) < 1
      exact not_lt.2 (by exact_mod_cast hM)
    refine ⟨(allow_fst_true_iff rl ip now2).2 ⟨not_lt.1 hb, not_lt.1 hsu⟩, ?_⟩
    rw [allow_snd_allowed rl ip now2 hsp hb hsu, hs1]
    rfl

theorem c8_gc_eviction_and_fresh_witness :
    ("old", (⟨2, 3, -1000, -1000, -1000⟩ : RateLimitState)) ∉
      ((⟨2, 5, 3, 60, 120, [("old", ⟨2, 3, -1000, -1000, -1000⟩)], -130⟩ :
        RateLimiter).gcPass 0).clients
    ∧ ((⟨2, 5, 3, 60, 120, [], 0⟩ : RateLimiter).allow "b" 7).1 = true
    ∧ findState "b" (((⟨2, 5, 3, 60, 120, [], 0⟩ : RateLimiter).allow "b" 7).2).clients =
      some { burst_tokens := ((2 : ℕ) : ℚ) - 1
             sustained_tokens := ((3 : ℕ) : ℚ) - 1
             last_burst_reset := 7
             last_refill := 7
             last_seen := 7 } := by
  refine ⟨?_, ?_, ?_⟩
  · exact (c8_gc_eviction_and_fresh
      (⟨2, 5, 3, 60, 120, [("old", ⟨2, 3, -1000, -1000, -1000⟩)], -130⟩ : RateLimiter)
      0 0 "x").1 (by show (120 : ℚ) ≤ 0 - (-130); norm_num) _ (by simp)
      (by show (60 : ℚ) * 2 < 0 - (-1000); norm_num)
  · exact ((c8_gc_eviction_and_fresh (⟨2, 5, 3, 60, 120, [], 0⟩ : RateLimiter) 0 7 "b").2
      rfl (by norm_num) (by norm_num) (by norm_num)).1
  · exact ((c8_gc_eviction_and_fresh (⟨2, 5, 3, 60, 120, [], 0⟩ : RateLimiter) 0 7 "b").2
      rfl (by norm_num) (by norm_num) (by norm_num)).2

/-! ## Claim C1: burst admission count at a fixed instant -/

theorem cast_sub_lt_one_iff (a j : ℕ) : (a : ℚ) - (j : ℚ) < 1 ↔ a ≤ j := by
  constructor
  · intro h
    by_contra hc
    push_neg at hc
    have h2 : (j : ℚ) + 1 ≤ (a : ℚ) := by exact_mod_cast hc
    linarith
  · intro h
    have h2 : (a : ℚ) ≤ (j : ℚ) := by exact_mod_cast h
    linarith

theorem new_eq_burstRunState_zero (B S : ℕ) (t : ℚ) :
    RateLimitState.new B S t = burstRunState B S t 0 := by
  simp [RateLimitState.new, burstRunState]

/-- A refill at the very instant every timestamp of the bucket carries
(no elapsed time, positive burst window) changes nothing. -/
theorem refill_static (rl : RateLimiter) (t : ℚ) (hbw : 0 < rl.burst_window)
    (s : RateLimitState) (hlr : s.last_refill = t) (hlbr : s.last_burst_reset = t)
    (hls : s.last_seen = t) :
    rl.refill t s = s := by
  have h1 : ¬ (0 < t - s.last_refill) := by
    rw [hlr, sub_self]; exact lt_irrefl 0
  have h2 : ¬ (rl.burst_window ≤ t - s.last_burst_reset) := by
    rw [hlbr, sub_self]; exact not_le.2 hbw
  simp only [RateLimiter.refill]
  rw [if_neg h1, if_neg h2]
  exact RateLimitState.ext rfl rfl rfl rfl hls.symm

/-- A GC pass attempted at the recorded last-GC time with a positive
interval is skipped. -/
theorem gcPass_static (rl : RateLimiter) (now : ℚ) (hlg : rl.last_gc = now)
    (hgci : 0 < rl.gc_interval) : rl.gcPass now = rl := by
  simp only [RateLimiter.gcPass]
  rw [if_pos (by rw [hlg, sub_self]; exact hgci)]

/-- One zero-elapsed-time `allow` call on a limiter whose only relevant
binding is the `k`-th burst-run bucket: admitted exactly while `k`
is below `min max_burst max_sustained`, advancing the bucket to the
`(k+1)`-th burst-run state. -/
theorem c1_step (B S : ℕ) (bw sp gci t : ℚ) (hbw : 0 < bw) (hgci : 0 < gci)
    (ip : String) (cs : List (String × RateLimitState)) (k : ℕ)
    (hget : (⟨B, bw, S, sp, gci, cs, t⟩ : RateLimiter).get_state ip t =
      burstRunState B S t k)
    (hset : ∀ x : RateLimitState, setState ip x cs = [(ip, x)]) :
    (⟨B, bw, S, sp, gci, cs, t⟩ : RateLimiter).allow ip t =
      (decide (k < min B S), ⟨B, bw, S, sp, gci, [(ip, burstRunState B S t (k + 1))], t⟩) := by
  have hs1 : (⟨B, bw, S, sp, gci, cs, t⟩ : RateLimiter).refill t
      ((⟨B, bw, S, sp, gci, cs, t⟩ : RateLimiter).get_state ip t) = burstRunState B S t k := by
    rw [hget]
    exact refill_static _ t hbw _ rfl rfl rfl
  have hgc : ∀ l : List (String × RateLimitState),
      (⟨B, bw, S, sp, gci, l, t⟩ : RateLimiter).gcPass t = ⟨B, bw, S, sp, gci, l, t⟩ :=
    fun l => gcPass_static _ t rfl hgci
  simp only [RateLimiter.allow, hs1, hset]
  rw [show ({ (⟨B, bw, S, sp, gci, cs, t⟩ : RateLimiter) with
        clients := [(ip, burstRunState B S t k)] } : RateLimiter) =
      ⟨B, bw, S, sp, gci, [(ip, burstRunState B S t k)], t⟩ from rfl, hgc]
  by_cases hk : k < min B S
  · have hjb : ¬ (burstRunState B S t k).burst_tokens < 1 := by
      rw [show (burstRunState B S t k).burst_tokens =
          (B : ℚ) - ((min k (min B S) : ℕ) : ℚ) from rfl, cast_sub_lt_one_iff]
      omega
    have hjs : ¬ (burstRunState B S t k).sustained_tokens < 1 := by
      rw [show (burstRunState B S t k).sustained_tokens =
          (S : ℚ) - ((min k (min B S) : ℕ) : ℚ) from rfl, cast_sub_lt_one_iff]
      omega
    rw [if_neg hjb, if_neg hjs]
    have hmin : min k (min B S) = k := min_eq_left (le_of_lt hk)
    have hmin1 : min (k + 1) (min B S) = k + 1 := min_eq_left (by omega)
    have hstate : ({ burstRunState B S t k with
        burst_tokens := (burstRunState B S t k).burst_tokens - 1
        sustained_tokens := (burstRunState B S t k).sustained_tokens - 1 } :
        RateLimitState) = burstRunState B S t (k + 1) := by
      refine RateLimitState.ext ?_ ?_ rfl rfl rfl
      · show (burstRunState B S t k).burst_tokens - 1 =
          (burstRunState B S t (k + 1)).burst_tokens
        simp only [burstRunState, hmin, hmin1]
        push_cast
        ring
      · show (burstRunState B S t k).sustained_tokens - 1 =
          (burstRunState B S t (k + 1)).sustained_tokens
        simp only [burstRunState, hmin, hmin1]
        push_cast
        ring
    have hupd : updateExisting ip
        { burstRunState B S t k with
          burst_tokens := (burstRunState B S t k).burst_tokens - 1
          sustained_tokens := (burstRunState B S t k).sustained_tokens - 1 }
        [(ip, burstRunState B S t k)] =
        [(ip, burstRunState B S t (k + 1))] := by
      simp [updateExisting, hstate]
    rw [hupd]
    simp [hk]
  · have hj : min k (min B S) = min B S := min_eq_right (le_of_not_lt hk)
    have hj1 : min (k + 1) (min B S) = min B S := min_eq_right (by omega)
    have hbrs : burstRunState B S t (k + 1) = burstRunState B S t k := by
      simp only [burstRunState, hj, hj1]
    by_cases hbs : B ≤ S
    · have hlow : (burstRunState B S t k).burst_tokens < 1 := by
        rw [show (burstRunState B S t k).burst_tokens =
            (B : ℚ) - ((min k (min B S) : ℕ) : ℚ) from rfl, cast_sub_lt_one_iff]
        omega
      rw [if_pos hlow, hbrs]
      simp [hk]
    · have hlow2 : (burstRunState B S t k).sustained_tokens < 1 := by
        rw [show (burstRunState B S t k).sustained_tokens =
            (S : ℚ) - ((min k (min B S) : ℕ) : ℚ) from rfl, cast_sub_lt_one_iff]
        omega
      by_cases hlow1 : (burstRunState B S t k).burst_tokens < 1
      · rw [if_pos hlow1, hbrs]
        simp [hk]
      · rw [if_neg hlow1, if_pos hlow2, hbrs]
        simp [hk]

/-- The limiter after `n` zero-elapsed-time `allow` calls from a fresh
start holds exactly the caller's `n`-th burst-run bucket. -/
theorem c1_run (B S : ℕ) (bw sp gci t : ℚ) (hbw : 0 < bw) (hgci : 0 < gci)
    (ip : String) : ∀ n : ℕ,
    (RateLimiter.init B bw S sp gci t).allowRun ip t n =
      ⟨B, bw, S, sp, gci,
       if n = 0 then [] else [(ip, burstRunState B S t n)], t⟩ := by
  intro n
  induction n with
  | zero => simp [RateLimiter.init, RateLimiter.allowRun]
  | succ n ih =>
    rw [RateLimiter.allowRun, ih]
    by_cases hn : n = 0
    · subst hn
      rw [if_pos rfl]
      have hstep := c1_step B S bw sp gci t hbw hgci ip [] 0
        (by rw [RateLimiter.get_state]
            simp [findState, new_eq_burstRunState_zero])
        (by intro x; simp [setState])
      rw [hstep]
      simp
    · rw [if_neg hn]
      have hstep := c1_step B S bw sp gci t hbw hgci ip [(ip, burstRunState B S t n)] n
        (by rw [RateLimiter.get_state]
            simp [findState])
        (by intro x; simp [setState])
      rw [hstep]
      simp

/-- C1: starting from a fresh limiter, for calls with no elapsed time
(so positive burst window and GC interval mean no refill, burst reset
or GC intervenes), exactly the first `min max_burst max_sustained`
`allow` calls are admitted and every later call is denied. -/
theorem c1_burst_admission_count (B S : ℕ) (bw sp gci t : ℚ)
    (hbw : 0 < bw) (hgci : 0 < gci) (ip : String) (n : ℕ) :
    (RateLimiter.init B bw S sp gci t).nthAllow ip t n = decide (n < min B S) := by
  unfold RateLimiter.nthAllow
  rw [c1_run B S bw sp gci t hbw hgci ip n]
  by_cases hn : n = 0
  · subst hn
    rw [if_pos rfl]
    rw [c1_step B S bw sp gci t hbw hgci ip [] 0
      (by rw [RateLimiter.get_state]
          simp [findState, new_eq_burstRunState_zero])
      (by intro x; simp [setState])]
  · rw [if_neg hn]
    rw [c1_step B S bw sp gci t hbw hgci ip [(ip, burstRunState B S t n)] n
      (by rw [RateLimiter.get_state]
          simp [findState])
      (by intro x; simp [setState])]

theorem c1_burst_admission_count_witness :
    (RateLimiter.init 2 5 3 60 120 0).nthAllow "a" 0 1 = true
    ∧ (RateLimiter.init 2 5 3 60 120 0).nthAllow "a" 0 2 = false := by
  constructor
  · have h := c1_burst_admission_count 2 3 5 60 120 0 (by norm_num) (by norm_num) "a" 1
    exact h.trans (by decide)
  · have h := c1_burst_admission_count 2 3 5 60 120 0 (by norm_num) (by norm_num) "a" 2
    exact h.trans (by decide)
